import Mathlib

/-!
Verification of the universal-website-scraper core (src/scraper.py) against its
natural-language specification.  The Python code is shallowly embedded: the
parsed HTML DOM becomes an inductive tree, the pure extraction pipeline
(`_extract_meta`, `_extract_sections`, `_process_section`,
`_extract_by_headings`, `_deduplicate_sections`, `_needs_js_rendering`,
`_should_force_js`, the merge policy inside `scrape`) becomes executable Lean
functions, and the effectful fetch/render passes are parameterised by an
environment oracle describing the outcome of each external interaction, so
that `scrape` itself is a total function of the URL and that oracle.
-/

namespace Scraper

/-! ## HTML document model

A parsed markup tree in the style of the selectolax `HTMLParser` node tree:
an element carries its tag, its attribute list and its children; text nodes
carry their raw text.  Whitespace-only inter-element text nodes are simply not
materialised in the concrete documents used below (i.e. the documents are
written compactly). -/

inductive Node where
  | text (s : String)
  | elem (tag : String) (attrs : List (String × String)) (children : List Node)

/- Structural equality of nodes, used to model Python `in` membership tests
on node lists (selectolax node comparison). -/
mutual
def nodeEq : Node → Node → Bool
  | .text a, .text b => a == b
  | .elem t1 a1 c1, .elem t2 a2 c2 => t1 == t2 && a1 == a2 && nodesEq c1 c2
  | _, _ => false
def nodesEq : List Node → List Node → Bool
  | [], [] => true
  | x :: xs, y :: ys => nodeEq x y && nodesEq xs ys
  | _, _ => false
end

/-! ## Python string primitives (character-list based, kernel-computable) -/

/-- ASCII whitespace as stripped by Python `str.strip()` (the concrete
documents below use only these whitespace characters). -/
def isWsChar (c : Char) : Bool :=
  c == ' ' || c == '\t' || c == '\n' || c == '\r'

/-- Python `str.strip()` on a character list. -/
def pyStripChars (l : List Char) : List Char :=
  ((l.dropWhile isWsChar).reverse.dropWhile isWsChar).reverse

/-- Python `str.strip()`. -/
def pyStrip (s : String) : String := ⟨pyStripChars s.data⟩

/-- Python `str.lower()` on one character (ASCII range; the source compares
against ASCII keywords only). -/
def pyLowerChar (c : Char) : Char :=
  if 'A' ≤ c ∧ c ≤ 'Z' then Char.ofNat (c.toNat + 32) else c

/-- Python `str.lower()`. -/
def pyLower (s : String) : String := ⟨s.data.map pyLowerChar⟩

/-- Helper for `pySplitWs`: accumulates the current word (reversed). -/
def splitWsGo : List Char → List Char → List String
  | [], cur => if cur.isEmpty then [] else [⟨cur.reverse⟩]
  | c :: rest, cur =>
    if isWsChar c then
      if cur.isEmpty then splitWsGo rest [] else ⟨cur.reverse⟩ :: splitWsGo rest []
    else splitWsGo rest (c :: cur)

/-- Python `str.split()` with no argument: split on whitespace runs,
discarding empty pieces. -/
def pySplitWs (s : String) : List String := splitWsGo s.data []

/-- Python `sep.join(parts)`. -/
def pyJoin (sep : String) : List String → String
  | [] => ""
  | [s] => s
  | s :: rest => s ++ sep ++ pyJoin sep rest

/-- Whether `small` is a prefix of `big` (on characters). -/
def isPrefixChars : List Char → List Char → Bool
  | [], _ => true
  | _ :: _, [] => false
  | a :: as, b :: bs => a == b && isPrefixChars as bs

/-- Whether `needle` occurs as a contiguous substring of `hay` (on
characters); Python `needle in hay`. -/
def isSubChars (needle : List Char) : List Char → Bool
  | [] => needle.isEmpty
  | c :: t => isPrefixChars needle (c :: t) || isSubChars needle t

/-- Python `needle in hay` on strings. -/
def pyIn (needle hay : String) : Bool := isSubChars needle.data hay.data

/-! ## Decimal rendering of naturals (Python `str(n)` / f-string `{idx}`)

Defined by fuel-based structural recursion so that it reduces inside the
kernel, together with a decoding function used to prove it injective. -/

/-- The character for a single decimal digit. -/
def digitChr (d : Nat) : Char := Char.ofNat (48 + d)

/-- Most-significant-first digit characters of `n`; `fuel ≥ n` suffices. -/
def natStrAux : Nat → Nat → List Char
  | 0, _ => []
  | fuel + 1, n => if n = 0 then [] else natStrAux fuel (n / 10) ++ [digitChr (n % 10)]

/-- Python `str(n)` for a natural number `n`. -/
def natStr (n : Nat) : String := if n = 0 then "0" else ⟨natStrAux n n⟩

/-- Decimal decoding, inverse to `natStrAux` on its image. -/
def decodeDigits (l : List Char) : Nat := l.foldl (fun a c => 10 * a + (c.toNat - 48)) 0

theorem decodeDigits_append_last (xs : List Char) (c : Char) :
    decodeDigits (xs ++ [c]) = 10 * decodeDigits xs + (c.toNat - 48) := by
  unfold decodeDigits
  rw [List.foldl_append]
  rfl

theorem digitChr_toNat : ∀ d : Nat, d < 10 → (digitChr d).toNat = 48 + d := by decide

theorem digitChr_ne_dash : ∀ d : Nat, d < 10 → digitChr d ≠ '-' := by decide

theorem natStrAux_decode : ∀ fuel n : Nat, n ≤ fuel → decodeDigits (natStrAux fuel n) = n := by
  intro fuel
  induction fuel with
  | zero =>
    intro n hn
    interval_cases n
    rfl
  | succ f ih =>
    intro n hn
    by_cases h0 : n = 0
    · subst h0; rfl
    · have hrec : natStrAux (f + 1) n = natStrAux f (n / 10) ++ [digitChr (n % 10)] := by
        simp [natStrAux, h0]
      rw [hrec, decodeDigits_append_last]
      have hdiv : n / 10 ≤ f := by
        have : n / 10 < n := Nat.div_lt_self (Nat.pos_of_ne_zero h0) (by omega)
        omega
      rw [ih (n / 10) hdiv, digitChr_toNat (n % 10) (Nat.mod_lt n (by omega))]
      omega

theorem natStr_decode (n : Nat) : decodeDigits (natStr n).data = n := by
  by_cases h0 : n = 0
  · subst h0; rfl
  · have : natStr n = ⟨natStrAux n n⟩ := by simp [natStr, h0]
    rw [this]
    exact natStrAux_decode n n (Nat.le_refl n)

theorem natStr_inj {a b : Nat} (h : natStr a = natStr b) : a = b := by
  have := congrArg (fun s : String => decodeDigits s.data) h
  simpa [natStr_decode] using this

theorem natStrAux_no_dash : ∀ fuel n : Nat, ∀ c ∈ natStrAux fuel n, c ≠ '-' := by
  intro fuel
  induction fuel with
  | zero => intro n c hc; simp [natStrAux] at hc
  | succ f ih =>
    intro n c hc
    by_cases h0 : n = 0
    · subst h0; simp [natStrAux] at hc
    · simp only [natStrAux, h0, if_false] at hc
      rcases List.mem_append.mp hc with h | h
      · exact ih _ c h
      · rcases List.mem_singleton.mp h with rfl
        exact digitChr_ne_dash (n % 10) (Nat.mod_lt n (by omega))

theorem natStr_no_dash (n : Nat) : ∀ c ∈ (natStr n).data, c ≠ '-' := by
  by_cases h0 : n = 0
  · subst h0
    intro c hc
    simp [natStr, String.data] at hc
    subst hc
    decide
  · intro c hc
    have : natStr n = ⟨natStrAux n n⟩ := by simp [natStr, h0]
    rw [this] at hc
    exact natStrAux_no_dash n n c hc

/-! ## DOM traversal primitives (selectolax operations used by the source) -/

/- Preorder collection of the elements of a subtree whose tag is in `tags`,
modelling `node.css("t1, t2, ...")`: document order, the node itself
included when it matches (every call site in the source queries tags that
cannot equal the queried node's own tag, so self-inclusion is unobservable). -/
mutual
def cssTags (tags : List String) : Node → List Node
  | .text _ => []
  | .elem t a cs =>
    (if tags.contains t then [Node.elem t a cs] else []) ++ cssTagsL tags cs
def cssTagsL (tags : List String) : List Node → List Node
  | [] => []
  | n :: rest => cssTags tags n ++ cssTagsL tags rest
end

/-- Modelling `node.css_first("tag")`. -/
def cssFirst (tag : String) (n : Node) : Option Node := (cssTags [tag] n).head?

/- Preorder collection of elements satisfying an attribute-level predicate,
modelling `css_first` with attribute selectors such as
`meta[property="og:title"]`. -/
mutual
def cssPred (p : String → List (String × String) → Bool) : Node → List Node
  | .text _ => []
  | .elem t a cs =>
    (if p t a then [Node.elem t a cs] else []) ++ cssPredL p cs
def cssPredL (p : String → List (String × String) → Bool) : List Node → List Node
  | [] => []
  | n :: rest => cssPred p n ++ cssPredL p rest
end

/-- First element matching tag plus one exact attribute, e.g.
`css_first('meta[property="og:title"]')`. -/
def cssFirstAttr (tag attrName attrVal : String) (n : Node) : Option Node :=
  (cssPred (fun t a => t == tag && (a.find? (fun p => p.1 == attrName)).map Prod.snd == some attrVal) n).head?

/-- Modelling `node.attributes.get(key)`. -/
def attrGet (n : Node) (key : String) : Option String :=
  match n with
  | .text _ => none
  | .elem _ attrs _ => (attrs.find? (fun p => p.1 == key)).map Prod.snd

/-- Modelling `node.attributes.get(key, default)`. -/
def attrGetD (n : Node) (key default : String) : String := (attrGet n key).getD default

/- Modelling selectolax `node.text(strip=True)`: the concatenation, in
document order, of every descendant text chunk with each chunk stripped. -/
mutual
def textChunks : Node → String
  | .text s => pyStrip s
  | .elem _ _ cs => textChunksL cs
def textChunksL : List Node → String
  | [] => ""
  | n :: rest => textChunks n ++ textChunksL rest
end

/-- Modelling `node.text(strip=True)`. -/
def textStrip (n : Node) : String := textChunks n

/- Modelling `node.html`: serialized markup of the subtree (attributes
rendered as `key="value"`; the source only measures its length and truncates
it, so the exact quoting convention is unobservable to the claims). -/
mutual
def htmlOf : Node → String
  | .text s => s
  | .elem t attrs cs =>
    "<" ++ t ++ (attrs.map (fun p => " " ++ p.1 ++ "=\x22" ++ p.2 ++ "\x22")).foldl (· ++ ·) ""
      ++ ">" ++ htmlOfL cs ++ "</" ++ t ++ ">"
def htmlOfL : List Node → String
  | [] => ""
  | n :: rest => htmlOf n ++ htmlOfL rest
end

/-- Tag membership test for the heading walk of `_extract_by_headings`
(`current.tag not in ["h1", "h2", "h3"]`); a text node's selectolax tag is
`"-text"`, which is not an h-tag. -/
def isHeadingTag : Node → Bool
  | .text _ => false
  | .elem t _ _ => t == "h1" || t == "h2" || t == "h3"

/- Every `h1`/`h2`/`h3` element of a subtree, in document order, paired with
the list of its following siblings.  This models the combination of
`body.css("h1, h2, h3")` with the `heading.next` sibling walk of
`_extract_by_headings` (selectolax `.next` enumerates following siblings and
returns None at the end of the parent's child list). -/
mutual
def headingTails : Node → List (Node × List Node)
  | .text _ => []
  | .elem _ _ cs => headingTailsL cs
def headingTailsL : List Node → List (Node × List Node)
  | [] => []
  | n :: rest =>
    (if isHeadingTag n then [(n, rest)] else []) ++ headingTails n ++ headingTailsL rest
end

/-- The sibling-collection loop of `_extract_by_headings`: walk following
siblings, stopping at the next `h1`/`h2`/`h3`; after appending an element,
stop once more than 15 have been collected. -/
def collectSiblings (acc : List Node) : List Node → List Node
  | [] => acc
  | n :: rest =>
    if isHeadingTag n then acc
    else
      let acc2 := acc ++ [n]
      if 15 < acc2.length then acc2 else collectSiblings acc2 rest

/-! ## Data model (the dictionaries of scraper.py as structures)

Top-level result keys are always present in the source (the `scrape`
initializer creates them all and `dict.update` only replaces values), so they
are plain fields.  The `meta` dictionary, however, is wholly replaced by the
pass results and can lose keys: its fields are `Option`-valued, `none`
meaning the key is absent. -/

structure Link where
  text : String
  href : String
deriving DecidableEq, Repr

structure Image where
  src : String
  alt : String
deriving DecidableEq, Repr

structure Content where
  headings : List String
  text : String
  links : List Link
  images : List Image
  lists : List (List String)
  tables : List (List (List String))
deriving DecidableEq, Repr

structure Section where
  id : String
  type : String
  label : String
  sourceUrl : String
  content : Content
  rawHtml : String
  truncated : Bool
deriving DecidableEq, Repr

/-- The `meta` dictionary.  For `canonical` the outer `Option` is key
presence, the inner one the Python `None` value. -/
structure MetaDict where
  title : Option String
  description : Option String
  language : Option String
  canonical : Option (Option String)
  strategy : Option String
deriving DecidableEq, Repr

/-- Python `dict.update`: keys present in `j` overwrite those of `m`, keys
absent from `j` are kept from `m`. -/
def MetaDict.updateWith (m j : MetaDict) : MetaDict where
  title := j.title.orElse fun _ => m.title
  description := j.description.orElse fun _ => m.description
  language := j.language.orElse fun _ => m.language
  canonical := j.canonical.orElse fun _ => m.canonical
  strategy := j.strategy.orElse fun _ => m.strategy

structure Interactions where
  clicks : List String
  scrolls : Nat
  pages : List String
deriving DecidableEq, Repr

structure ScrapeError where
  message : String
  phase : String
  suggestion : Option String
deriving DecidableEq, Repr

structure ScrapeResult where
  url : String
  scrapedAt : String
  meta : MetaDict
  sections : List Section
  interactions : Interactions
  errors : List ScrapeError
deriving DecidableEq, Repr

/-- The dictionary returned by `_static_scrape` / `_js_scrape` (no `url` or
`scrapedAt` keys). -/
structure PassResult where
  meta : MetaDict
  sections : List Section
  interactions : Interactions
  errors : List ScrapeError
deriving DecidableEq, Repr

/-! ## External URL helpers

These model Python standard-library functions (urllib.parse), which are
external to this repository; no claim depends on the precise resolution
rules, only on which strings are collected. -/

/-- The character list following the first `"://"` occurrence, if any. -/
def afterScheme : List Char → Option (List Char)
  | [] => none
  | c :: rest =>
    if isPrefixChars [':', '/', '/'] (c :: rest) then some (rest.drop 2)
    else afterScheme rest

/-- Modelled from Python `urllib.parse.urlparse(url).netloc` (stdlib,
external to this repository): the host part between `"://"` and the next
slash; simplified (no userinfo/port/query handling). -/
def netloc (url : String) : String :=
  match afterScheme url.data with
  | some rest => ⟨rest.takeWhile (fun c => !(c == '/'))⟩
  | none => ""

/-- Modelled from Python `urllib.parse.urljoin` (stdlib, external to this
repository): an already-absolute reference is returned as is, otherwise the
reference is appended to the base; simplified, as no claim inspects resolved
URLs. -/
def urljoin (base rel : String) : String :=
  if (afterScheme rel.data).isSome then rel else base ++ rel

/-! ## Content extraction (`_process_section` and its helpers) -/

/-- The link-collection loop of `_process_section`: `a` elements with
non-empty href and text, text capped at 100 characters, stop after 20. -/
def collectLinks (url : String) : List Node → List Link → List Link
  | [], acc => acc
  | a :: rest, acc =>
    let href := attrGetD a "href" ""
    let txt := textStrip a
    if href ≠ "" ∧ txt ≠ "" then
      let acc2 := acc ++ [⟨⟨txt.data.take 100⟩, urljoin url href⟩]
      if 20 ≤ acc2.length then acc2 else collectLinks url rest acc2
    else collectLinks url rest acc

/-- The image-collection loop: `img` elements with a `src` or `data-src`,
stop after 10. -/
def collectImages (url : String) : List Node → List Image → List Image
  | [], acc => acc
  | img :: rest, acc =>
    let src0 := attrGetD img "src" ""
    let src := if src0 ≠ "" then src0 else attrGetD img "data-src" ""
    if src ≠ "" then
      let acc2 := acc ++ [⟨urljoin url src, attrGetD img "alt" ""⟩]
      if 10 ≤ acc2.length then acc2 else collectImages url rest acc2
    else collectImages url rest acc

/-- The list-collection loop: each `ul`/`ol` contributes its non-empty `li`
texts (items capped at 200 characters, 20 items per list); the cap of 5
lists is checked after every `ul`/`ol`. -/
def collectLists : List Node → List (List String) → List (List String)
  | [], acc => acc
  | ul :: rest, acc =>
    let items :=
      (((cssTags ["li"] ul).map textStrip).filter (fun t => t ≠ "")).map
        (fun t => (⟨t.data.take 200⟩ : String))
    let acc2 := if items ≠ [] then acc ++ [items.take 20] else acc
    if 5 ≤ acc2.length then acc2 else collectLists rest acc2

/-- The row-collection loop inside the table loop: each `tr` contributes its
`td`/`th` texts capped at 100 characters; non-empty rows only, cap 20 rows. -/
def collectRows : List Node → List (List String) → List (List String)
  | [], acc => acc
  | tr :: rest, acc =>
    let row := (cssTags ["td", "th"] tr).map (fun c => (⟨(textStrip c).data.take 100⟩ : String))
    let acc2 := if row ≠ [] then acc ++ [row] else acc
    if 20 ≤ acc2.length then acc2 else collectRows rest acc2

/-- The table-collection loop: cap 3 tables, checked after every table. -/
def collectTables : List Node → List (List (List String)) → List (List (List String))
  | [], acc => acc
  | t :: rest, acc =>
    let rows := collectRows (cssTags ["tr"] t) []
    let acc2 := if rows ≠ [] then acc ++ [rows] else acc
    if 3 ≤ acc2.length then acc2 else collectTables rest acc2

/-- The `div` fallback loop for body text: `div` texts longer than 30
characters are appended until 5 text parts exist. -/
def addDivTexts (acc : List String) : List Node → List String
  | [] => acc
  | d :: rest =>
    let t := textStrip d
    if 30 < t.data.length then
      let acc2 := acc ++ [t]
      if 5 ≤ acc2.length then acc2 else addDivTexts acc2 rest
    else addDivTexts acc rest

/-- The heading tags queried level by level by `_process_section`. -/
def hLevelTags : List String := ["h1", "h2", "h3", "h4", "h5", "h6"]

/-- The assembled `content` dictionary of `_process_section`. -/
def sectionContent (element : Node) (url : String) : Content :=
  let headings :=
    (hLevelTags.map fun t => ((cssTags [t] element).map textStrip).filter (fun s => s ≠ "")).flatten
  let pParts := ((cssTags ["p"] element).map textStrip).filter (fun t => 10 < t.data.length)
  let parts :=
    if pParts.length < 2 then addDivTexts pParts (cssTags ["div"] element) else pParts
  { headings := headings
    text := pyJoin " " (parts.take 15)
    links := collectLinks url (cssTags ["a"] element) []
    images := collectImages url (cssTags ["img"] element) []
    lists := collectLists (cssTags ["ul", "ol"] element) []
    tables := collectTables (cssTags ["table"] element) [] }

/-- `_detect_section_type`: keyword classification over the combined
lowercase class and id attributes, else list-based, else `"section"`. -/
def detect_section_type (element : Node) (content : Content) : String :=
  let classes := pyLower (pyJoin " " (pySplitWs (attrGetD element "class" "")))
  let elementId := pyLower (attrGetD element "id" "")
  let combined := classes ++ " " ++ elementId
  if ["hero", "banner", "jumbotron", "masthead"].any (fun w => pyIn w combined) then "hero"
  else if ["nav", "menu", "navigation", "navbar"].any (fun w => pyIn w combined) then "nav"
  else if ["footer", "foot"].any (fun w => pyIn w combined) then "footer"
  else if ["faq", "question", "accordion"].any (fun w => pyIn w combined) then "faq"
  else if ["pricing", "price", "plan", "tier"].any (fun w => pyIn w combined) then "pricing"
  else if ["grid", "gallery", "cards"].any (fun w => pyIn w combined) then "grid"
  else if 0 < content.lists.length then "list"
  else "section"

/-- The landmark-kind overrides applied after `_detect_section_type`. -/
def overrideType (section_type detected : String) : String :=
  if section_type = "header" then "hero"
  else if section_type = "nav" then "nav"
  else if section_type = "footer" then "footer"
  else if section_type = "article" then "section"
  else detected

/-- The `type_labels` dictionary lookup of `_create_label` (default
`"Section"`). -/
def typeLabel (t : String) : String :=
  if t = "hero" then "Hero"
  else if t = "nav" then "Navigation"
  else if t = "footer" then "Footer"
  else if t = "faq" then "FAQ"
  else if t = "pricing" then "Pricing"
  else if t = "grid" then "Grid"
  else if t = "list" then "List"
  else if t = "section" then "Section"
  else if t = "article" then "Article"
  else "Section"

/-- `_create_label`: first heading capped at 80 characters, else the type
label, optionally suffixed with the first 10 words of the body text when that
context exceeds 15 characters. -/
def create_label (content : Content) (section_type : String) : String :=
  match content.headings with
  | h :: _ => ⟨h.data.take 80⟩
  | [] =>
    let base := typeLabel section_type
    if content.text ≠ "" then
      let context := pyJoin " " ((pySplitWs content.text).take 10)
      if 15 < context.data.length then base ++ ": " ++ context else base
    else base

/-- The id string `f"{detected_type}-{idx}"`. -/
def mkId (t : String) (idx : Nat) : String := t ++ "-" ++ natStr idx

/-- `_process_section`: one landmark element turned into a `Section`.  The
source's `Optional` return is never `None` (every path returns a dict), so
the result is total. -/
def process_section (element : Node) (section_type : String) (idx : Nat) (url : String) :
    Section :=
  let content := sectionContent element url
  let detected := overrideType section_type (detect_section_type element content)
  let label := create_label content detected
  let raw := htmlOf element
  let truncated := 1000 < raw.data.length
  { id := mkId detected idx
    type := detected
    label := label
    sourceUrl := url
    content := content
    rawHtml := if truncated then (⟨raw.data.take 1000⟩ : String) ++ "..." else raw
    truncated := truncated }

/-! ## Metadata extraction (`_extract_meta`) -/

/-- `_extract_meta`: title/description preference chains, language from the
root `lang` attribute, canonical resolved to an absolute URL.  All four keys
are present in the returned dictionary; the `strategy` key is added by the
callers. -/
def extract_meta (doc : Node) (url : String) : MetaDict :=
  let title0 := match cssFirst "title" doc with
    | some t => textStrip t
    | none => ""
  let title1 := if title0 = "" then
      match cssFirstAttr "meta" "property" "og:title" doc with
      | some m => attrGetD m "content" ""
      | none => ""
    else title0
  let title := if title1 = "" then
      match cssFirstAttr "meta" "name" "twitter:title" doc with
      | some m => attrGetD m "content" ""
      | none => ""
    else title1
  let desc0 := match cssFirstAttr "meta" "name" "description" doc with
    | some m => attrGetD m "content" ""
    | none => ""
  let desc1 := if desc0 = "" then
      match cssFirstAttr "meta" "property" "og:description" doc with
      | some m => attrGetD m "content" ""
      | none => ""
    else desc0
  let desc := if desc1 = "" then
      match cssFirstAttr "meta" "name" "twitter:description" doc with
      | some m => attrGetD m "content" ""
      | none => ""
    else desc1
  let language := match cssFirst "html" doc with
    | some h =>
      let lang := attrGetD h "lang" "en"
      if lang ≠ "" then (⟨lang.data.takeWhile (fun c => !(c == '-'))⟩ : String) else "en"
    | none => "en"
  let canonical := match cssFirstAttr "link" "rel" "canonical" doc with
    | some l =>
      let href := attrGetD l "href" ""
      if href ≠ "" then some (urljoin url href) else none
    | none => none
  { title := some title
    description := some desc
    language := some language
    canonical := some canonical
    strategy := none }

/-! ## Section pipeline (`_extract_sections`, `_extract_by_headings`,
`_deduplicate_sections`) -/

/-- The per-section fingerprint of `_deduplicate_sections`:
`text[:100].lower().strip()`. -/
def fingerprint (s : Section) : String :=
  ⟨pyStripChars ((s.content.text.data.take 100).map pyLowerChar)⟩

/-- The loop body of `_deduplicate_sections` with the running `seen_texts`
set of fingerprints. -/
def dedupGo (seen : List String) : List Section → List Section
  | [] => []
  | s :: rest =>
    let fp := fingerprint s
    if fp ≠ "" ∧ fp ∉ seen then s :: dedupGo (fp :: seen) rest
    else if fp = "" ∧ s.content.headings ≠ [] then s :: dedupGo seen rest
    else dedupGo seen rest

/-- `_deduplicate_sections`, including the early return for sequences of at
most one section. -/
def deduplicate_sections (sections : List Section) : List Section :=
  if sections.length ≤ 1 then sections else dedupGo [] sections

/-- The landmark-processing loop of `_extract_sections` starting at
enumerate index `i`: each landmark is processed and kept when it has text or
headings. -/
def processLandmarksFrom (url : String) : Nat → List (String × Node) → List Section
  | _, [] => []
  | i, (ty, e) :: rest =>
    let s := process_section e ty i url
    if s.content.text ≠ "" ∨ s.content.headings ≠ [] then
      s :: processLandmarksFrom url (i + 1) rest
    else processLandmarksFrom url (i + 1) rest

/-- The extra-article loop: append every `article` element not already among
the landmark nodes (`article_elem not in [l[1] for l in landmarks]`,
re-evaluated against the growing list). -/
def addArticles (landmarks : List (String × Node)) : List Node → List (String × Node)
  | [] => landmarks
  | a :: rest =>
    if (landmarks.map Prod.snd).any (fun n => nodeEq n a) then addArticles landmarks rest
    else addArticles (landmarks ++ [("article", a)]) rest

/-- Landmark discovery of `_extract_sections`: `main`, `article`, `header`,
`nav`, `footer` (first match each), every `section`, then — if fewer than 3
landmarks — every not-yet-captured `article`, and finally the `body` when
still empty. -/
def findLandmarks (doc : Node) : List (String × Node) :=
  let first := fun (t : String) => match cssFirst t doc with
    | some n => [(t, n)]
    | none => ([] : List (String × Node))
  let l0 := first "main" ++ first "article" ++ first "header" ++ first "nav" ++ first "footer"
    ++ (cssTags ["section"] doc).map (fun n => ("section", n))
  let l1 := if l0.length < 3 then addArticles l0 (cssTags ["article"] doc) else l0
  if l1.isEmpty then
    match cssFirst "body" doc with
    | some b => [("body", b)]
    | none => []
  else l1

/-- The sections derived from landmark processing (enumerate starts at 0). -/
def landmarkSections (doc : Node) (url : String) : List Section :=
  processLandmarksFrom url 0 (findLandmarks doc)

/-- The loop of `_extract_by_headings` over heading/sibling pairs: the
virtual `<section>` wrapper around a heading and its collected following
siblings is processed with `idx = len(sections)` (the length of the local
accumulator), and kept when it has text or headings.  The source serializes
heading plus siblings and re-parses them; for well-formed markup that
round-trip is the identity, modelled here as direct construction of the
wrapper element. -/
def extractByHeadingsAux (url : String) : List (Node × List Node) → List Section → List Section
  | [], acc => acc
  | (h, sibs) :: rest, acc =>
    let virtual := Node.elem "section" [] (h :: collectSiblings [] sibs)
    let s := process_section virtual "section" acc.length url
    if s.content.text ≠ "" ∨ s.content.headings ≠ [] then
      extractByHeadingsAux url rest (acc ++ [s])
    else extractByHeadingsAux url rest acc

/-- `_extract_by_headings`: heading-based fallback over the first 15
`h1`/`h2`/`h3` elements of the body. -/
def extract_by_headings (doc : Node) (url : String) : List Section :=
  match cssFirst "body" doc with
  | none => []
  | some body => extractByHeadingsAux url ((headingTails body).take 15) []

/-- `_extract_sections`: landmark sections, heading fallback when fewer than
3, then deduplication. -/
def extract_sections (doc : Node) (url : String) : List Section :=
  let sections := landmarkSections doc url
  let sections :=
    if sections.length < 3 then sections ++ extract_by_headings doc url else sections
  deduplicate_sections sections

/-! ## Strategy selection and orchestration (`WebScraper.scrape`) -/

/-- The configuration constants of `WebScraper.__init__`. -/
def max_scrolls : Nat := 3

/-- Pagination page budget (`self.max_pages`). -/
def max_pages : Nat := 3

/-- The fixed allow-list of JS-heavy domains of `_should_force_js`. -/
def js_heavy_domains : List String :=
  ["wikipedia.org", "wikimedia.org", "medium.com", "vercel.com", "twitter.com", "x.com",
   "reddit.com", "linkedin.com", "instagram.com", "facebook.com", "youtube.com",
   "netflix.com", "airbnb.com", "uber.com"]

/-- `_should_force_js`: any allow-list entry occurring as a substring of the
domain. -/
def should_force_js (domain : String) : Bool :=
  js_heavy_domains.any (fun d => pyIn d domain)

/-- The block-indicator tokens of `_needs_js_rendering`. -/
def blocked_errors : List String := ["403", "429", "Forbidden", "Too Many Requests"]

/-- `_needs_js_rendering`: blocked errors suppress rendering; otherwise
fewer than 2 sections or under 200 characters of total section text trigger
it. -/
def needs_js_rendering (r : ScrapeResult) : Bool :=
  if r.errors.any (fun e => blocked_errors.any (fun b => pyIn b e.message)) then false
  else if r.sections.length < 2 then true
  else if (r.sections.map (fun s => s.content.text.length)).sum < 200 then true
  else false

/-! ## Environment oracles for the effectful passes

The fetch and render passes perform network and browser I/O; their
interaction with the outside world is supplied as data, so that both passes
and `scrape` itself are total functions.  Every run of the Python code
corresponds to some oracle value. -/

/-- Outcome of the single HTTP GET of `_static_scrape` (success carries the
parsed document). -/
inductive FetchOutcome where
  | success (doc : Node)
  | httpStatusError (code : Nat) (reason : String)
  | timedOut
  | otherFailure (msg : String)

/-- Where a render session's inner `try` block fails, if it does:
before the interaction scripts ran (`page.goto` / the waits), or after them
(reading the final content), or not at all. -/
inductive SessionRun where
  | failBefore (isTimeout : Bool) (msg : String)
  | failAfter (isTimeout : Bool) (msg : String)
  | complete (doc : Node)

/-- The observable outcomes of one render session's interaction scripts.
`nextLinks` drives the pagination loop: `none` means no visible next link
was found in that iteration (break), `some none` a link whose `href` was
falsy (no page recorded), and `some (some u)` a link resolving to `u`.  A
click failure that breaks the loop is represented by truncating the list. -/
structure RenderSession where
  clicks : List String
  scrolls : Nat
  scrollError : Option String
  nextLinks : List (Option (Option String))
  paginationError : Option String
  run : SessionRun

/-- Environment for `_js_scrape`: either the Playwright setup itself fails
(outer `except`, phase `"playwright"`) or a session runs. -/
inductive JsEnv where
  | setupFailure (msg : String)
  | session (s : RenderSession)

/-- Environment of one `scrape` invocation.  `classifyFailure` models an
exception escaping the body of `scrape`'s own `try` (outside the passes,
which catch their own); it aborts before any pass runs and is recorded with
phase `"scrape"`. -/
structure ScrapeEnv where
  scrapedAt : String
  classifyFailure : Option String
  fetch : FetchOutcome
  js : JsEnv

/-- The `visited_pages` loop of `_follow_pagination`: up to `fuel`
iterations, each appending the resolved next URL when it is new. -/
def paginationVisited (fuel : Nat) (visited : List String)
    (links : List (Option (Option String))) : List String :=
  match fuel, links with
  | 0, _ => visited
  | _ + 1, [] => visited
  | _ + 1, none :: _ => visited
  | f + 1, some none :: rest => paginationVisited f visited rest
  | f + 1, some (some u) :: rest =>
    paginationVisited f (if u ∈ visited then visited else visited ++ [u]) rest

/-- A meta dictionary holding only the `strategy` key, as initialised by
both passes. -/
def strategyOnly (s : String) : MetaDict :=
  { title := none, description := none, language := none, canonical := none,
    strategy := some s }

/-- `_static_scrape`: on success, extracted meta (with strategy `"static"`)
and sections; every failure is converted to a `phase:"fetch"` error. -/
def static_scrape (url : String) (f : FetchOutcome) : PassResult :=
  let base : PassResult :=
    { meta := strategyOnly "static", sections := [],
      interactions := { clicks := [], scrolls := 0, pages := [url] }, errors := [] }
  match f with
  | .success doc =>
    { base with
      meta := { extract_meta doc url with strategy := some "static" }
      sections := extract_sections doc url }
  | .httpStatusError code reason =>
    { base with errors := [⟨"HTTP " ++ natStr code ++ ": " ++ reason, "fetch",
        some "Site may be blocking automated requests. Try JS rendering."⟩] }
  | .timedOut =>
    { base with errors := [⟨"Request timed out after 30 seconds", "fetch", none⟩] }
  | .otherFailure msg =>
    { base with errors := [⟨msg, "fetch", none⟩] }

/-- `_js_scrape`: stealth render pass.  When Playwright is unavailable a
`playwright_check` error is recorded; a setup failure gives a `"playwright"`
error; a navigation failure before the interactions leaves the initial
interactions; otherwise the interaction telemetry (clicks, scrolls with an
optional `"scroll"` error, pagination pages with an optional `"pagination"`
error) is recorded, and either a `"render"`/`"js_scrape"` error is appended
or the final document's meta (strategy `"js"`) and sections are extracted. -/
def js_scrape (playwrightAvailable : Bool) (url : String) (env : JsEnv) : PassResult :=
  let base : PassResult :=
    { meta := strategyOnly "js", sections := [],
      interactions := { clicks := [], scrolls := 0, pages := [url] }, errors := [] }
  if !playwrightAvailable then
    { base with errors := [⟨"Playwright not installed. Run: pip install playwright && playwright install chromium",
        "playwright_check", none⟩] }
  else
    match env with
    | .setupFailure msg =>
      { base with errors := [⟨msg, "playwright", none⟩] }
    | .session s =>
      match s.run with
      | .failBefore isTimeout msg =>
        { base with errors :=
            [if isTimeout then ⟨"Timeout: " ++ msg, "render", none⟩
             else ⟨msg, "js_scrape", none⟩] }
      | .failAfter isTimeout msg =>
        { base with
          interactions := ⟨s.clicks, s.scrolls, paginationVisited (max_pages - 1) [url] s.nextLinks⟩
          errors := interactionErrors s ++
            [if isTimeout then ⟨"Timeout: " ++ msg, "render", none⟩
             else ⟨msg, "js_scrape", none⟩] }
      | .complete doc =>
        { base with
          meta := { extract_meta doc url with strategy := some "js" }
          sections := extract_sections doc url
          interactions := ⟨s.clicks, s.scrolls, paginationVisited (max_pages - 1) [url] s.nextLinks⟩
          errors := interactionErrors s }
where
  interactionErrors (s : RenderSession) : List ScrapeError :=
    (match s.scrollError with
     | some m => [⟨"Scroll error: " ++ m, "scroll", none⟩]
     | none => []) ++
    (match s.paginationError with
     | some m => [⟨"Pagination error: " ++ m, "pagination", none⟩]
     | none => [])

/-- Whether `js_result.get("meta", {}).get("title")` is truthy: the title
key exists with a non-empty value. -/
def metaTitleTruthy (m : MetaDict) : Bool :=
  match m.title with
  | some t => t ≠ ""
  | none => false

/-- The merge block of `scrape` (lines 81-89): sections replaced only when
the render pass found strictly more; meta overwritten (and strategy forced
to `"js"`) only when the render pass produced a truthy title; interactions
always replaced (the interactions dictionary of `_js_scrape` is never
empty, so its Python truthiness test always passes); render errors appended. -/
def mergeResults (r : ScrapeResult) (j : PassResult) : ScrapeResult :=
  let r1 := if j.sections ≠ [] ∧ r.sections.length < j.sections.length then
      { r with sections := j.sections } else r
  let r2 := if metaTitleTruthy j.meta then
      { r1 with meta := { r1.meta.updateWith j.meta with strategy := some "js" } } else r1
  let r3 := { r2 with interactions := j.interactions }
  if j.errors ≠ [] then { r3 with errors := r3.errors ++ j.errors } else r3

/-- The fully defaulted meta dictionary built by `scrape`'s initializer. -/
def initMeta : MetaDict :=
  { title := some "", description := some "", language := some "en",
    canonical := some none, strategy := some "static" }

/-- The result skeleton built at the top of `scrape`. -/
def initResult (url scrapedAt : String) : ScrapeResult :=
  { url := url, scrapedAt := scrapedAt, meta := initMeta, sections := [],
    interactions := { clicks := [], scrolls := 0, pages := [url] }, errors := [] }

/-- `result.update(pass_result)`: the four pass keys replace the
corresponding top-level values wholesale; `url` and `scrapedAt` are
untouched. -/
def applyPass (r : ScrapeResult) (p : PassResult) : ScrapeResult :=
  { r with
    meta := p.meta
    sections := p.sections
    interactions := p.interactions
    errors := p.errors }

/-- The state of `result` after the fetch pass on the static path, i.e. the
value on which `_needs_js_rendering` is evaluated. -/
def fetchPhase (url scrapedAt : String) (f : FetchOutcome) : ScrapeResult :=
  applyPass (initResult url scrapedAt) (static_scrape url f)

/-- Lines 71-75 of the source: before attempting the render fallback,
`scrape` sets `meta.strategy` to `"js"` and appends the
`fallback_decision` informational error to the fetch-phase result. -/
def fallbackPre (url sAt : String) (f : FetchOutcome) : ScrapeResult :=
  let result := fetchPhase url sAt f
  { result with
    meta := { result.meta with strategy := some "js" }
    errors := result.errors ++
      [⟨"Static scraping insufficient, using JS rendering", "fallback_decision", none⟩] }

/-- The `playwright_check` error appended when rendering is needed but
unavailable. -/
def pwMissing (r : ScrapeResult) : ScrapeResult :=
  { r with errors := r.errors ++
      [⟨"JS rendering recommended but Playwright not installed. Run: pip install playwright && playwright install chromium",
        "playwright_check", none⟩] }

/-- `WebScraper.scrape`: the top-level orchestrator, as a total function of
the URL and the environment oracle. -/
def scrape (playwrightAvailable : Bool) (url : String) (env : ScrapeEnv) : ScrapeResult :=
  let result := initResult url env.scrapedAt
  match env.classifyFailure with
  | some msg =>
    { result with errors := result.errors ++ [⟨msg, "scrape", none⟩] }
  | none =>
    let domain := pyLower (netloc url)
    let force_js := should_force_js domain
    if force_js && playwrightAvailable then
      -- strategy is set to "js" and then the whole meta dict is replaced by update
      applyPass result (js_scrape playwrightAvailable url env.js)
    else
      let result := fetchPhase url env.scrapedAt env.fetch
      let needs_js := needs_js_rendering result
      if needs_js && playwrightAvailable then
        mergeResults (fallbackPre url env.scrapedAt env.fetch)
          (js_scrape playwrightAvailable url env.js)
      else if needs_js && !playwrightAvailable then
        pwMissing result
      else result

/-! ## Specification-side deduplication

A second definition of deduplication transcribing the specification sentence
(keep the first section for each distinct non-empty fingerprint, drop every
later section sharing it, keep an empty-fingerprint section exactly when it
has a heading), to be compared with `deduplicate_sections` above, which was
translated from the source. -/

/-- The specification's keep condition for a section given all sections
`prev` occurring before it in the sequence. -/
def specKept (prev : List Section) (s : Section) : Prop :=
  (fingerprint s ≠ "" ∧ ∀ p ∈ prev, fingerprint p ≠ fingerprint s) ∨
  (fingerprint s = "" ∧ s.content.headings ≠ [])

instance (prev : List Section) (s : Section) : Decidable (specKept prev s) := by
  unfold specKept
  infer_instance

/-- Deduplication as the specification describes it, walking the sequence
with the list of all previously seen sections. -/
def dedupSpecGo (prev : List Section) : List Section → List Section
  | [] => []
  | s :: rest =>
    if specKept prev s then s :: dedupSpecGo (prev ++ [s]) rest
    else dedupSpecGo (prev ++ [s]) rest

/-- Deduplication following the specification's words. -/
def dedupSpec (l : List Section) : List Section := dedupSpecGo [] l

/-! ## Concrete documents and environments used as inputs below -/

/-- A URL whose host matches no entry of the JS-heavy allow-list. -/
def uSite : String := "http://site.org/"

/-- The page of the end-to-end scenario: a `main` containing one `h1` and
three paragraphs each longer than 10 characters. -/
def docC8 : Node :=
  .elem "html" [] [.elem "body" [] [.elem "main" [] [
    .elem "h1" [] [.text "Title"],
    .elem "p" [] [.text "First paragraph text."],
    .elem "p" [] [.text "Second paragraph text."],
    .elem "p" [] [.text "Third paragraph text."]]]]

/-- A page whose landmark pass yields one section (a `main` with one
paragraph, no headings) and whose heading fallback yields another with
different text: both receive the id `section-0`. -/
def docC6 : Node :=
  .elem "html" [] [.elem "body" [] [
    .elem "main" [] [.elem "p" [] [.text "Alpha paragraph body text."]],
    .elem "h1" [] [.text "T"],
    .elem "p" [] [.text "Beta paragraph body text."]]]

/-- A minimal one-section page. -/
def docW : Node :=
  .elem "html" [] [.elem "body" [] [.elem "main" [] [.elem "p" [] [.text "Twelve chars ok"]]]]

/-- The single section extracted from `docW`. -/
def secW : Section :=
  { id := "section-0", type := "section", label := "Section", sourceUrl := uSite,
    content := ⟨[], "Twelve chars ok", [], [], [], []⟩,
    rawHtml := "<main><p>Twelve chars ok</p></main>", truncated := false }

/-- A section with exactly 100 characters of body text. -/
def sec100 : Section :=
  { id := "section-0", type := "section", label := "Section", sourceUrl := uSite,
    content := ⟨[], ⟨List.replicate 100 'a'⟩, [], [], [], []⟩, rawHtml := "", truncated := false }

/-- A content-free, heading-free section (empty fingerprint). -/
def secEmpty : Section :=
  { id := "section-0", type := "section", label := "Section", sourceUrl := uSite,
    content := ⟨[], "", [], [], [], []⟩, rawHtml := "", truncated := false }

/-- A section with a heading but no body text. -/
def secHeadingOnly : Section :=
  { id := "section-1", type := "section", label := "Head", sourceUrl := uSite,
    content := ⟨["Head"], "", [], [], [], []⟩, rawHtml := "", truncated := false }

/-- A fetch result with exactly one section and no errors. -/
def oneSectionRes : ScrapeResult :=
  { initResult uSite "t0" with sections := [secW] }

/-- A fetch result with five sections of 100 characters of text each. -/
def fiveSectionRes : ScrapeResult :=
  { initResult uSite "t0" with sections := List.replicate 5 sec100 }

/-- A fetch result carrying a 403 block error. -/
def blockedRes : ScrapeResult :=
  { initResult uSite "t0" with errors := [⟨"HTTP 403: Forbidden", "fetch",
      some "Site may be blocking automated requests. Try JS rendering."⟩] }

/-- Environment: the fetch pass fails with HTTP 500 and no rendering is
available — a totally failed scrape. -/
def env500 : ScrapeEnv := ⟨"t0", none, .httpStatusError 500 "Server Error", .setupFailure "boom"⟩

/-- Environment: the body of `scrape` itself raises. -/
def envBoom : ScrapeEnv := ⟨"t0", some "boom", .timedOut, .setupFailure "x"⟩

/-- Environment: fetch succeeds on the one-landmark page, the render pass
times out during navigation. -/
def envC8nav : ScrapeEnv :=
  ⟨"t0", none, .success docC8, .session ⟨[], 0, none, [], none, .failBefore true "nav timeout"⟩⟩

/-- Environment: fetch succeeds on the id-colliding page, rendering
unavailable. -/
def envDup : ScrapeEnv := ⟨"t0", none, .success docC6, .setupFailure "x"⟩

/-- Environment: fetch succeeds on the minimal page, rendering unavailable. -/
def envW : ScrapeEnv := ⟨"t0", none, .success docW, .setupFailure "x"⟩

/-! ## Helper lemmas: the ordinal inside a section id determines it -/

theorem takeWhile_append_middle (p : Char → Bool) :
    ∀ (a : List Char) (c : Char) (b : List Char), (∀ x ∈ a, p x = true) → p c = false →
      (a ++ c :: b).takeWhile p = a := by
  intro a
  induction a with
  | nil =>
    intro c b _ hc
    simp [List.takeWhile, hc]
  | cons x xs ih =>
    intro c b ha hc
    have hx : p x = true := ha x (List.mem_cons_self x xs)
    rw [List.cons_append, List.takeWhile_cons_of_pos hx,
      ih c b (fun y hy => ha y (List.mem_cons_of_mem x hy)) hc]

theorem mkId_data (t : String) (k : Nat) :
    (mkId t k).data = t.data ++ '-' :: (natStr k).data := by
  unfold mkId
  rw [String.data_append, String.data_append, List.append_assoc]
  rfl

theorem mkId_ord_inj {t1 t2 : String} {k1 k2 : Nat} (h : mkId t1 k1 = mkId t2 k2) :
    k1 = k2 := by
  have hd := congrArg String.data h
  rw [mkId_data, mkId_data] at hd
  have hr := congrArg List.reverse hd
  rw [List.reverse_append, List.reverse_append, List.reverse_cons, List.reverse_cons] at hr
  simp only [List.append_assoc, List.singleton_append] at hr
  have hk1 : ∀ x ∈ (natStr k1).data.reverse, (fun c : Char => !(c == '-')) x = true := by
    intro x hx
    have := natStr_no_dash k1 x (List.mem_reverse.mp hx)
    simpa using this
  have hk2 : ∀ x ∈ (natStr k2).data.reverse, (fun c : Char => !(c == '-')) x = true := by
    intro x hx
    have := natStr_no_dash k2 x (List.mem_reverse.mp hx)
    simpa using this
  have hdash : (fun c : Char => !(c == '-')) '-' = false := by decide
  have ht := congrArg (List.takeWhile (fun c : Char => !(c == '-'))) hr
  rw [takeWhile_append_middle _ _ _ _ hk1 hdash, takeWhile_append_middle _ _ _ _ hk2 hdash] at ht
  have hdata : (natStr k1).data = (natStr k2).data := by
    have := congrArg List.reverse ht
    simpa using this
  exact natStr_inj (String.ext hdata)

theorem process_section_id (e : Node) (ty : String) (i : Nat) (url : String) :
    (process_section e ty i url).id =
      mkId (overrideType ty (detect_section_type e (sectionContent e url))) i := rfl

/-! ## Helper lemmas: id distinctness within each extraction group -/

theorem processLandmarksFrom_mem_id (url : String) :
    ∀ (L : List (String × Node)) (i : Nat) (s : Section),
      s ∈ processLandmarksFrom url i L → ∃ t k, i ≤ k ∧ s.id = mkId t k := by
  intro L
  induction L with
  | nil => intro i s hs; simp [processLandmarksFrom] at hs
  | cons hd rest ih =>
    intro i s hs
    obtain ⟨ty, e⟩ := hd
    by_cases hkeep : (process_section e ty i url).content.text ≠ "" ∨
        (process_section e ty i url).content.headings ≠ []
    · rw [processLandmarksFrom, if_pos hkeep] at hs
      rcases List.mem_cons.mp hs with rfl | hs
      · exact ⟨_, i, Nat.le_refl i, process_section_id e ty i url⟩
      · obtain ⟨t, k, hk, hid⟩ := ih (i + 1) s hs
        exact ⟨t, k, Nat.le_of_succ_le hk, hid⟩
    · rw [processLandmarksFrom, if_neg hkeep] at hs
      obtain ⟨t, k, hk, hid⟩ := ih (i + 1) s hs
      exact ⟨t, k, Nat.le_of_succ_le hk, hid⟩

theorem processLandmarksFrom_pairwise (url : String) :
    ∀ (L : List (String × Node)) (i : Nat),
      List.Pairwise (fun a b : Section => a.id ≠ b.id) (processLandmarksFrom url i L) := by
  intro L
  induction L with
  | nil => intro i; simp [processLandmarksFrom]
  | cons hd rest ih =>
    intro i
    obtain ⟨ty, e⟩ := hd
    by_cases hkeep : (process_section e ty i url).content.text ≠ "" ∨
        (process_section e ty i url).content.headings ≠ []
    · rw [processLandmarksFrom, if_pos hkeep]
      refine List.Pairwise.cons ?_ (ih (i + 1))
      intro s hs heq
      obtain ⟨t, k, hk, hid⟩ := processLandmarksFrom_mem_id url rest (i + 1) s hs
      rw [process_section_id, hid] at heq
      have := mkId_ord_inj heq
      omega
    · rw [processLandmarksFrom, if_neg hkeep]
      exact ih (i + 1)

theorem extractByHeadingsAux_pairwise (url : String) :
    ∀ (ps : List (Node × List Node)) (acc : List Section),
      (∀ s ∈ acc, ∃ t k, k < acc.length ∧ s.id = mkId t k) →
      List.Pairwise (fun a b : Section => a.id ≠ b.id) acc →
      List.Pairwise (fun a b : Section => a.id ≠ b.id) (extractByHeadingsAux url ps acc) := by
  intro ps
  induction ps with
  | nil => intro acc _ hp; exact hp
  | cons hd rest ih =>
    intro acc hbound hp
    obtain ⟨h, sibs⟩ := hd
    rw [extractByHeadingsAux]
    set v := Node.elem "section" [] (h :: collectSiblings [] sibs) with hv
    by_cases hkeep : (process_section v "section" acc.length url).content.text ≠ "" ∨
        (process_section v "section" acc.length url).content.headings ≠ []
    · rw [if_pos hkeep]
      set s := process_section v "section" acc.length url with hs
      refine ih (acc ++ [s]) ?_ ?_
      · intro x hx
        rcases List.mem_append.mp hx with hx | hx
        · obtain ⟨t, k, hk, hid⟩ := hbound x hx
          exact ⟨t, k, by simp; omega, hid⟩
        · rcases List.mem_singleton.mp hx with rfl
          exact ⟨_, acc.length, by simp, process_section_id v "section" acc.length url⟩
      · rw [List.pairwise_append]
        refine ⟨hp, List.pairwise_singleton _ _, ?_⟩
        intro a ha b hb
        rcases List.mem_singleton.mp hb with rfl
        obtain ⟨t, k, hk, hid⟩ := hbound a ha
        intro heq
        rw [hid, process_section_id] at heq
        have := mkId_ord_inj heq
        omega
    · rw [if_neg hkeep]
      exact ih acc hbound hp

theorem extract_by_headings_pairwise (doc : Node) (url : String) :
    List.Pairwise (fun a b : Section => a.id ≠ b.id) (extract_by_headings doc url) := by
  unfold extract_by_headings
  cases cssFirst "body" doc with
  | none => simp
  | some body =>
    exact extractByHeadingsAux_pairwise url _ [] (by simp) (by simp)

/-! ## Helper lemmas: deduplication -/

theorem dedupGo_sublist (seen : List String) :
    ∀ l : List Section, (dedupGo seen l).Sublist l := by
  intro l
  induction l generalizing seen with
  | nil => simp [dedupGo]
  | cons s rest ih =>
    rw [dedupGo]
    split_ifs with h1 h2
    · exact List.Sublist.cons₂ s (ih _)
    · exact List.Sublist.cons₂ s (ih _)
    · exact List.Sublist.cons s (ih _)

theorem deduplicate_sections_sublist (l : List Section) :
    (deduplicate_sections l).Sublist l := by
  unfold deduplicate_sections
  split_ifs with h
  · exact List.Sublist.refl l
  · exact dedupGo_sublist [] l

theorem dedupGo_idem :
    ∀ (l : List Section) (seen : List String), dedupGo seen (dedupGo seen l) = dedupGo seen l := by
  intro l
  induction l with
  | nil => intro seen; simp [dedupGo]
  | cons s rest ih =>
    intro seen
    rw [dedupGo]
    split_ifs with h1 h2
    · rw [dedupGo, if_pos h1, ih]
    · rw [dedupGo, if_neg (by tauto), if_pos h2, ih]
    · exact ih seen

theorem dedupGo_eq_spec :
    ∀ (l : List Section) (seen : List String) (prev : List Section),
      (∀ f : String, f ∈ seen ↔ (f ≠ "" ∧ ∃ p ∈ prev, fingerprint p = f)) →
      dedupGo seen l = dedupSpecGo prev l := by
  intro l
  induction l with
  | nil => intro seen prev _; simp [dedupGo, dedupSpecGo]
  | cons s rest ih =>
    intro seen prev hinv
    rw [dedupGo, dedupSpecGo]
    by_cases hfp : fingerprint s = ""
    · have hnotfirst : ¬ (fingerprint s ≠ "" ∧ fingerprint s ∉ seen) := by tauto
      rw [if_neg hnotfirst]
      have hspec : specKept prev s ↔ s.content.headings ≠ [] := by
        unfold specKept
        simp [hfp]
      have hinv2 : ∀ f : String, f ∈ seen ↔ (f ≠ "" ∧ ∃ p ∈ prev ++ [s], fingerprint p = f) := by
        intro f
        rw [hinv f]
        constructor
        · rintro ⟨hne, p, hp, hfpp⟩
          exact ⟨hne, p, List.mem_append_left _ hp, hfpp⟩
        · rintro ⟨hne, p, hp, hfpp⟩
          rcases List.mem_append.mp hp with hp | hp
          · exact ⟨hne, p, hp, hfpp⟩
          · rcases List.mem_singleton.mp hp with rfl
            exact absurd (hfpp.symm.trans hfp) hne
      by_cases hh : s.content.headings ≠ []
      · rw [if_pos ⟨hfp, hh⟩, if_pos (hspec.mpr hh), ih seen (prev ++ [s]) hinv2]
      · rw [if_neg (by tauto), if_neg (by rw [hspec]; exact hh), ih seen (prev ++ [s]) hinv2]
    · by_cases hseen : fingerprint s ∈ seen
      · have hnotfirst : ¬ (fingerprint s ≠ "" ∧ fingerprint s ∉ seen) := by tauto
        rw [if_neg hnotfirst, if_neg (by simp [hfp])]
        have hnspec : ¬ specKept prev s := by
          unfold specKept
          obtain ⟨-, p, hp, hfpp⟩ := (hinv (fingerprint s)).mp hseen
          rintro (⟨-, hall⟩ | ⟨heq, -⟩)
          · exact hall p hp hfpp
          · exact hfp heq
        rw [if_neg hnspec]
        refine ih seen (prev ++ [s]) ?_
        intro f
        rw [hinv f]
        constructor
        · rintro ⟨hne, p, hp, hfpp⟩
          exact ⟨hne, p, List.mem_append_left _ hp, hfpp⟩
        · rintro ⟨hne, p, hp, hfpp⟩
          rcases List.mem_append.mp hp with hp | hp
          · exact ⟨hne, p, hp, hfpp⟩
          · rcases List.mem_singleton.mp hp with rfl
            rcases hfpp with rfl
            obtain ⟨-, q, hq, hfq⟩ := (hinv (fingerprint p)).mp hseen
            exact ⟨hne, q, hq, hfq⟩
      · rw [if_pos ⟨hfp, hseen⟩]
        have hspec : specKept prev s := by
          unfold specKept
          left
          refine ⟨hfp, ?_⟩
          intro p hp hfpp
          exact hseen ((hinv (fingerprint s)).mpr ⟨hfp, p, hp, hfpp⟩)
        rw [if_pos hspec]
        refine congrArg (s :: ·) (ih (fingerprint s :: seen) (prev ++ [s]) ?_)
        intro f
        constructor
        · intro hf
          rcases List.mem_cons.mp hf with rfl | hf
          · exact ⟨hfp, s, List.mem_append_right _ (List.mem_singleton_self s), rfl⟩
          · obtain ⟨hne, p, hp, hfpp⟩ := (hinv f).mp hf
            exact ⟨hne, p, List.mem_append_left _ hp, hfpp⟩
        · rintro ⟨hne, p, hp, hfpp⟩
          rcases List.mem_append.mp hp with hp | hp
          · exact List.mem_cons_of_mem _ ((hinv f).mpr ⟨hne, p, hp, hfpp⟩)
          · rcases List.mem_singleton.mp hp with rfl
            rcases hfpp with rfl
            exact List.mem_cons_self _ _

/-! ## Helper lemmas: sourceUrl propagation and interaction pages -/

theorem process_section_sourceUrl (e : Node) (ty : String) (i : Nat) (url : String) :
    (process_section e ty i url).sourceUrl = url := rfl

theorem processLandmarksFrom_sourceUrl (url : String) :
    ∀ (L : List (String × Node)) (i : Nat) (s : Section),
      s ∈ processLandmarksFrom url i L → s.sourceUrl = url := by
  intro L
  induction L with
  | nil => intro i s hs; simp [processLandmarksFrom] at hs
  | cons hd rest ih =>
    intro i s hs
    obtain ⟨ty, e⟩ := hd
    rw [processLandmarksFrom] at hs
    split_ifs at hs with h
    · rcases List.mem_cons.mp hs with rfl | hs
      · rfl
      · exact ih (i + 1) s hs
    · exact ih (i + 1) s hs

theorem extractByHeadingsAux_sourceUrl (url : String) :
    ∀ (ps : List (Node × List Node)) (acc : List Section),
      (∀ s ∈ acc, s.sourceUrl = url) →
      ∀ s ∈ extractByHeadingsAux url ps acc, s.sourceUrl = url := by
  intro ps
  induction ps with
  | nil => intro acc hacc s hs; exact hacc s hs
  | cons hd rest ih =>
    intro acc hacc s hs
    obtain ⟨h, sibs⟩ := hd
    rw [extractByHeadingsAux] at hs
    split_ifs at hs with hkeep
    · refine ih _ ?_ s hs
      intro x hx
      rcases List.mem_append.mp hx with hx | hx
      · exact hacc x hx
      · rcases List.mem_singleton.mp hx with rfl
        rfl
    · exact ih acc hacc s hs

theorem extract_by_headings_sourceUrl (doc : Node) (url : String) :
    ∀ s ∈ extract_by_headings doc url, s.sourceUrl = url := by
  unfold extract_by_headings
  cases cssFirst "body" doc with
  | none => simp
  | some body => exact extractByHeadingsAux_sourceUrl url _ [] (by simp)

theorem extract_sections_sourceUrl (doc : Node) (url : String) :
    ∀ s ∈ extract_sections doc url, s.sourceUrl = url := by
  intro s hs
  unfold extract_sections at hs
  have hmem := (deduplicate_sections_sublist _).mem hs
  split_ifs at hmem with h
  · rcases List.mem_append.mp hmem with hm | hm
    · exact processLandmarksFrom_sourceUrl url _ 0 s hm
    · exact extract_by_headings_sourceUrl doc url s hm
  · exact processLandmarksFrom_sourceUrl url _ 0 s hmem

theorem static_scrape_success_sections (url : String) (doc : Node) :
    (static_scrape url (.success doc)).sections = extract_sections doc url := by
  simp only [static_scrape]

theorem js_scrape_complete_sections (url : String)
    (cl : List String) (sc : Nat) (se : Option String)
    (nl : List (Option (Option String))) (pe : Option String) (doc : Node) :
    (js_scrape true url (.session ⟨cl, sc, se, nl, pe, .complete doc⟩)).sections =
      extract_sections doc url := by
  simp only [js_scrape, Bool.not_true, Bool.false_eq_true, if_false]

theorem static_scrape_sections (url : String) (f : FetchOutcome) :
    ∀ s ∈ (static_scrape url f).sections, s.sourceUrl = url := by
  intro s hs
  cases f with
  | success doc =>
    rw [static_scrape_success_sections] at hs
    exact extract_sections_sourceUrl doc url s hs
  | httpStatusError c r => exact absurd hs (by simp [static_scrape])
  | timedOut => exact absurd hs (by simp [static_scrape])
  | otherFailure m => exact absurd hs (by simp [static_scrape])

theorem js_scrape_sections (pa : Bool) (url : String) (e : JsEnv) :
    ∀ s ∈ (js_scrape pa url e).sections, s.sourceUrl = url := by
  intro s hs
  cases pa with
  | false => exact absurd hs (by simp [js_scrape])
  | true =>
    cases e with
    | setupFailure m => exact absurd hs (by simp [js_scrape])
    | session sess =>
      obtain ⟨cl, sc, se, nl, pe, run⟩ := sess
      cases run with
      | failBefore t m => exact absurd hs (by simp [js_scrape])
      | failAfter t m => exact absurd hs (by simp [js_scrape])
      | complete doc =>
        rw [js_scrape_complete_sections] at hs
        exact extract_sections_sourceUrl doc url s hs

theorem mergeResults_sections_cases (r : ScrapeResult) (j : PassResult) :
    (mergeResults r j).sections = j.sections ∨ (mergeResults r j).sections = r.sections := by
  unfold mergeResults
  split_ifs <;> simp

theorem paginationVisited_head :
    ∀ (fuel : Nat) (links : List (Option (Option String))) (visited : List String),
      visited ≠ [] →
      (paginationVisited fuel visited links).head? = visited.head? ∧
        paginationVisited fuel visited links ≠ [] := by
  intro fuel
  induction fuel with
  | zero => intro links visited hv; exact ⟨rfl, hv⟩
  | succ f ih =>
    intro links visited hv
    match links with
    | [] => exact ⟨rfl, hv⟩
    | none :: rest => exact ⟨rfl, hv⟩
    | some none :: rest => exact ih rest visited hv
    | some (some u) :: rest =>
      rw [paginationVisited]
      by_cases hmem : u ∈ visited
      · rw [if_pos hmem]
        exact ih rest visited hv
      · rw [if_neg hmem]
        obtain ⟨h1, h2⟩ := ih rest (visited ++ [u]) (by simp)
        exact ⟨h1.trans (List.head?_append_of_ne_nil _ hv), h2⟩

theorem js_scrape_pages (pa : Bool) (url : String) (e : JsEnv) :
    (js_scrape pa url e).interactions.pages.head? = some url ∧
      (js_scrape pa url e).interactions.pages ≠ [] := by
  cases pa with
  | false => exact ⟨rfl, by simp [js_scrape]⟩
  | true =>
    cases e with
    | setupFailure m => exact ⟨rfl, by simp [js_scrape]⟩
    | session sess =>
      obtain ⟨cl, sc, se, nl, pe, run⟩ := sess
      cases run with
      | failBefore t m => exact ⟨rfl, by simp [js_scrape]⟩
      | failAfter t m =>
        obtain ⟨h1, h2⟩ := paginationVisited_head (max_pages - 1) nl [url] (by simp)
        exact ⟨h1, h2⟩
      | complete doc =>
        obtain ⟨h1, h2⟩ := paginationVisited_head (max_pages - 1) nl [url] (by simp)
        exact ⟨h1, h2⟩

theorem mergeResults_interactions (r : ScrapeResult) (j : PassResult) :
    (mergeResults r j).interactions = j.interactions := by
  unfold mergeResults
  split_ifs <;> simp

theorem mergeResults_url (r : ScrapeResult) (j : PassResult) :
    (mergeResults r j).url = r.url := by
  unfold mergeResults
  split_ifs <;> simp

theorem mergeResults_scrapedAt (r : ScrapeResult) (j : PassResult) :
    (mergeResults r j).scrapedAt = r.scrapedAt := by
  unfold mergeResults
  split_ifs <;> simp

theorem js_scrape_strategy (pa : Bool) (url : String) (e : JsEnv) :
    (js_scrape pa url e).meta.strategy = some "js" := by
  cases pa with
  | false => rfl
  | true =>
    cases e with
    | setupFailure m => rfl
    | session sess =>
      obtain ⟨cl, sc, se, nl, pe, run⟩ := sess
      cases run with
      | failBefore t m => rfl
      | failAfter t m => rfl
      | complete doc => rfl

theorem mergeResults_strategy (r : ScrapeResult) (j : PassResult)
    (h : r.meta.strategy = some "js") :
    (mergeResults r j).meta.strategy = some "js" := by
  unfold mergeResults
  split_ifs <;> simp [MetaDict.updateWith, h]

/-! ## Helper lemmas: merge equations and pass shapes -/

theorem mergeResults_sections_eq (r : ScrapeResult) (j : PassResult) :
    (mergeResults r j).sections =
      if r.sections.length < j.sections.length then j.sections else r.sections := by
  unfold mergeResults
  by_cases h1 : j.sections ≠ [] ∧ r.sections.length < j.sections.length
  · rw [if_pos h1, if_pos h1.2]
    split_ifs <;> simp
  · rw [if_neg h1]
    have hnot : ¬ r.sections.length < j.sections.length := by
      by_cases hj : j.sections = []
      · simp [hj]
      · tauto
    rw [if_neg hnot]
    split_ifs <;> simp

theorem mergeResults_meta_eq (r : ScrapeResult) (j : PassResult) :
    (mergeResults r j).meta =
      if metaTitleTruthy j.meta then
        { r.meta.updateWith j.meta with strategy := some "js" }
      else r.meta := by
  unfold mergeResults
  split_ifs <;> simp

theorem mergeResults_errors_eq (r : ScrapeResult) (j : PassResult) :
    (mergeResults r j).errors = r.errors ++ j.errors := by
  unfold mergeResults
  split_ifs <;> simp_all

theorem static_scrape_interactions (url : String) (f : FetchOutcome) :
    (static_scrape url f).interactions = ⟨[], 0, [url]⟩ := by
  cases f <;> rfl

theorem static_scrape_strategy (url : String) (f : FetchOutcome) :
    (static_scrape url f).meta.strategy = some "static" := by
  cases f <;> rfl

theorem fetchPhase_url (url sAt : String) (f : FetchOutcome) :
    (fetchPhase url sAt f).url = url := rfl

theorem fetchPhase_scrapedAt (url sAt : String) (f : FetchOutcome) :
    (fetchPhase url sAt f).scrapedAt = sAt := rfl

theorem scrape_classify (pa : Bool) (url sAt msg : String) (f : FetchOutcome) (js : JsEnv) :
    scrape pa url ⟨sAt, some msg, f, js⟩ =
      { initResult url sAt with errors := [⟨msg, "scrape", none⟩] } := rfl

theorem scrape_none_eq (pa : Bool) (url sAt : String) (f : FetchOutcome) (js : JsEnv) :
    scrape pa url ⟨sAt, none, f, js⟩ =
      if should_force_js (pyLower (netloc url)) && pa then
        applyPass (initResult url sAt) (js_scrape pa url js)
      else if needs_js_rendering (fetchPhase url sAt f) && pa then
        mergeResults (fallbackPre url sAt f) (js_scrape pa url js)
      else if needs_js_rendering (fetchPhase url sAt f) && !pa then
        pwMissing (fetchPhase url sAt f)
      else fetchPhase url sAt f := rfl

theorem fetchPhase_interactions (url sAt : String) (f : FetchOutcome) :
    (fetchPhase url sAt f).interactions = ⟨[], 0, [url]⟩ := by
  have h : (fetchPhase url sAt f).interactions = (static_scrape url f).interactions := rfl
  rw [h, static_scrape_interactions]

theorem fetchPhase_strategy (url sAt : String) (f : FetchOutcome) :
    (fetchPhase url sAt f).meta.strategy = some "static" := by
  have h : (fetchPhase url sAt f).meta = (static_scrape url f).meta := rfl
  rw [h, static_scrape_strategy]

/-! ## Claim C2 -/

/-- C2: for every URL and every environment, `scrape(url)` returns a result
with `result.url == url`, and `result.interactions.pages` is non-empty with
its first entry equal to the original URL, on every path (forced-JS, static
only, fallback-with-merge, rendering-unavailable, and total failure). -/
theorem scrape_url_and_pages (pa : Bool) (url : String) (env : ScrapeEnv) :
    (scrape pa url env).url = url ∧
    (scrape pa url env).interactions.pages ≠ [] ∧
    (scrape pa url env).interactions.pages.head? = some url := by
  obtain ⟨sAt, cf, f, js⟩ := env
  cases cf with
  | some msg =>
    rw [scrape_classify]
    exact ⟨rfl, by simp [initResult], rfl⟩
  | none =>
    rw [scrape_none_eq]
    split_ifs with h1 h2 h3
    · exact ⟨rfl, (js_scrape_pages pa url js).2, (js_scrape_pages pa url js).1⟩
    · refine ⟨?_, ?_, ?_⟩
      · rw [mergeResults_url]; rfl
      · rw [mergeResults_interactions]; exact (js_scrape_pages pa url js).2
      · rw [mergeResults_interactions]; exact (js_scrape_pages pa url js).1
    · refine ⟨rfl, ?_, ?_⟩
      · have h : (pwMissing (fetchPhase url sAt f)).interactions =
            (fetchPhase url sAt f).interactions := rfl
        rw [h, fetchPhase_interactions]
        simp
      · have h : (pwMissing (fetchPhase url sAt f)).interactions =
            (fetchPhase url sAt f).interactions := rfl
        rw [h, fetchPhase_interactions]
        rfl
    · refine ⟨rfl, ?_, ?_⟩
      · rw [fetchPhase_interactions]; simp
      · rw [fetchPhase_interactions]; rfl

/-! ## Claim C1 -/

/-- C1 (amended): `scrape` is total — it returns a `ScrapeResult` for every
URL and environment, never raising; a failure escaping the body of `scrape`
is recorded as an `errors` entry with phase `"scrape"` on an otherwise
default-populated result; `url`, `scrapedAt` and all top-level fields are
always present and `meta.strategy` always carries a value.  (The original
claim further said every `meta` key is present with a default even when
every pass fails; that part is refuted by `scrape_meta_counterexample`:
after a failed pass the `meta` dictionary is wholly replaced by one holding
only `strategy`.) -/
theorem scrape_total_shape (pa : Bool) (url : String) (env : ScrapeEnv) :
    (scrape pa url env).url = url ∧
    (scrape pa url env).scrapedAt = env.scrapedAt ∧
    (scrape pa url env).meta.strategy.isSome = true ∧
    (∀ msg, env.classifyFailure = some msg →
      scrape pa url env = { initResult url env.scrapedAt with errors := [⟨msg, "scrape", none⟩] }) := by
  obtain ⟨sAt, cf, f, js⟩ := env
  cases cf with
  | some m =>
    rw [scrape_classify]
    refine ⟨rfl, rfl, rfl, ?_⟩
    intro msg h
    have hm : m = msg := by simpa using h
    subst hm
    exact scrape_classify pa url sAt m f js
  | none =>
    rw [scrape_none_eq]
    split_ifs with h1 h2 h3
    · refine ⟨rfl, rfl, ?_, ?_⟩
      · have h : (applyPass (initResult url sAt) (js_scrape pa url js)).meta =
            (js_scrape pa url js).meta := rfl
        rw [h, js_scrape_strategy]
        rfl
      · intro msg h; exact absurd h (by simp)
    · refine ⟨?_, ?_, ?_, ?_⟩
      · rw [mergeResults_url]; rfl
      · rw [mergeResults_scrapedAt]; rfl
      · rw [mergeResults_strategy _ _ ?_]
        · rfl
        · have h : (fallbackPre url sAt f).meta.strategy = some "js" := rfl
          exact h
      · intro msg h; exact absurd h (by simp)
    · refine ⟨rfl, rfl, ?_, ?_⟩
      · have h : (pwMissing (fetchPhase url sAt f)).meta = (fetchPhase url sAt f).meta := rfl
        rw [h, fetchPhase_strategy]
        rfl
      · intro msg h; exact absurd h (by simp)
    · refine ⟨rfl, rfl, ?_, ?_⟩
      · rw [fetchPhase_strategy]; rfl
      · intro msg h; exact absurd h (by simp)

/-- C1 witness: the amended theorem applied at a concrete environment whose
`scrape` body fails, discharging the hypothesis. -/
theorem scrape_total_shape_witness :
    scrape true uSite envBoom =
      { initResult uSite "t0" with errors := [⟨"boom", "scrape", none⟩] } :=
  (scrape_total_shape true uSite envBoom).2.2.2 "boom" rfl

/-- C1 counterexample: with the fetch pass failing (HTTP 500) and rendering
unavailable, every pass has failed, yet the returned result's `meta` holds
only `strategy` — the `title`, `description`, `language` and `canonical`
keys are absent, refuting "every field of the data model is present with a
default value, even when every pass fails". -/
theorem scrape_meta_counterexample :
    (scrape false uSite env500).meta.title = none ∧
    (scrape false uSite env500).meta.description = none ∧
    (scrape false uSite env500).meta.language = none ∧
    (scrape false uSite env500).meta.canonical = none ∧
    (scrape false uSite env500).errors.map (fun e => e.phase) =
      ["fetch", "playwright_check"] := by
  refine ⟨rfl, rfl, rfl, rfl, rfl⟩

/-! ## Claim C3 -/

/-- C3: the needs-rendering decision after a fetch pass.  If any recorded
error message contains one of the block-indicator tokens, rendering is not
attempted regardless of section count or text length; otherwise rendering is
needed iff the result has fewer than 2 sections or under 200 characters of
total section text.  In particular a fetch result with exactly 1 section
and 0 errors needs rendering, and one with 5 sections of 100 characters of
text each does not. -/
theorem needs_rendering_characterization :
    (∀ r : ScrapeResult,
      (∃ e ∈ r.errors, ∃ b ∈ blocked_errors, pyIn b e.message = true) →
        needs_js_rendering r = false) ∧
    (∀ r : ScrapeResult,
      (¬ ∃ e ∈ r.errors, ∃ b ∈ blocked_errors, pyIn b e.message = true) →
        (needs_js_rendering r = true ↔
          (r.sections.length < 2 ∨
            (r.sections.map fun s => s.content.text.length).sum < 200))) ∧
    needs_js_rendering oneSectionRes = true ∧
    needs_js_rendering fiveSectionRes = false := by
  refine ⟨?_, ?_, by decide, by decide⟩
  · intro r h
    have hb : r.errors.any (fun e => blocked_errors.any (fun b => pyIn b e.message)) = true := by
      rw [List.any_eq_true]
      obtain ⟨e, he, b, hbm, hin⟩ := h
      exact ⟨e, he, List.any_eq_true.mpr ⟨b, hbm, hin⟩⟩
    unfold needs_js_rendering
    rw [if_pos hb]
  · intro r h
    have hb : ¬ (r.errors.any (fun e => blocked_errors.any (fun b => pyIn b e.message)) = true) := by
      intro hany
      apply h
      rw [List.any_eq_true] at hany
      obtain ⟨e, he, hi⟩ := hany
      rw [List.any_eq_true] at hi
      obtain ⟨b, hbm, hin⟩ := hi
      exact ⟨e, he, b, hbm, hin⟩
    unfold needs_js_rendering
    rw [if_neg hb]
    split_ifs with hl hs
    · simp [hl]
    · simp [hl, hs]
    · simp [hl, hs]

/-- C3 witness: the characterization applied at a concrete blocked fetch
result, discharging the existence hypothesis. -/
theorem needs_rendering_witness : needs_js_rendering blockedRes = false :=
  needs_rendering_characterization.1 blockedRes (by decide)

/-! ## Claim C4 -/

/-- C4: merge of the fetch-pass result with the render-pass result on the
fallback path — sections come from the render pass exactly when it found
strictly more of them; meta is overwritten by the render pass's meta exactly
when its title is truthy, and then strategy becomes `"js"`; interactions
are wholly replaced by the render pass's; and the render errors are appended
to the fetch errors with nothing removed. -/
theorem merge_policy (r : ScrapeResult) (j : PassResult) :
    (mergeResults r j).sections =
      (if r.sections.length < j.sections.length then j.sections else r.sections) ∧
    (mergeResults r j).meta =
      (if metaTitleTruthy j.meta then
        { r.meta.updateWith j.meta with strategy := some "js" }
      else r.meta) ∧
    (mergeResults r j).interactions = j.interactions ∧
    (mergeResults r j).errors = r.errors ++ j.errors :=
  ⟨mergeResults_sections_eq r j, mergeResults_meta_eq r j,
    mergeResults_interactions r j, mergeResults_errors_eq r j⟩

/-! ## Claim C5 -/

/-- C5 (amended): on the fallback path, once the render pass has been
attempted, `meta.strategy` is `"js"` regardless of which pass's output the
merge retains — it does not record which pass's output won.  (The original
claim, that strategy is `"static"` when the fetch pass's sections and meta
are both retained after merge, is refuted by `strategy_counterexample`:
`scrape` sets strategy to `"js"` before the render attempt and the merge
never resets it.) -/
theorem strategy_records_attempt (url : String) (env : ScrapeEnv)
    (h1 : env.classifyFailure = none)
    (h2 : should_force_js (pyLower (netloc url)) = false)
    (h3 : needs_js_rendering (fetchPhase url env.scrapedAt env.fetch) = true) :
    (scrape true url env).meta.strategy = some "js" := by
  obtain ⟨sAt, cf, f, js⟩ := env
  have hcf : cf = none := h1
  subst hcf
  rw [scrape_none_eq]
  rw [if_neg (by simp [h2]), if_pos (by simpa using h3)]
  exact mergeResults_strategy _ _ rfl

/-- C5 witness: the amended theorem applied at a concrete environment in
which the fetch pass succeeds with one section (so rendering is needed) and
the render pass then fails, discharging every hypothesis. -/
theorem strategy_records_attempt_witness :
    (scrape true uSite envC8nav).meta.strategy = some "js" :=
  strategy_records_attempt uSite envC8nav rfl (by decide) (by decide)

/-- C5 counterexample: in that same environment the render pass was
attempted (the `fallback_decision` and `render` errors are recorded) yet the
fetch pass's sections and meta title are retained by the merge, and
`meta.strategy` is `"js"`, not `"static"` — refuting the claim that the
strategy records which pass's output is retained. -/
theorem strategy_counterexample :
    (scrape true uSite envC8nav).sections = (fetchPhase uSite "t0" (.success docC8)).sections ∧
    (scrape true uSite envC8nav).sections ≠ [] ∧
    (scrape true uSite envC8nav).meta.title = (fetchPhase uSite "t0" (.success docC8)).meta.title ∧
    (scrape true uSite envC8nav).errors.map (fun e => e.phase) =
      ["fallback_decision", "render"] ∧
    (scrape true uSite envC8nav).meta.strategy = some "js" ∧
    (scrape true uSite envC8nav).meta.strategy ≠ some "static" := by
  exact ⟨rfl, by decide, rfl, rfl, rfl, by decide⟩

/-! ## Claim C6 -/

/-- C6 (amended): each section id combines the detected type with an
ordinal; ids are pairwise distinct among the landmark-derived sections and
pairwise distinct among the heading-fallback sections (each group's ordinal
is strictly increasing), and the result's sections form a subsequence of the
two groups concatenated.  Across the two groups, however, ids can collide,
because the heading fallback restarts its ordinal at 0 — the original
claim of uniqueness within the whole result is refuted by
`section_ids_counterexample`. -/
theorem section_ids_amended (doc : Node) (url : String) :
    List.Pairwise (fun a b : Section => a.id ≠ b.id) (landmarkSections doc url) ∧
    List.Pairwise (fun a b : Section => a.id ≠ b.id) (extract_by_headings doc url) ∧
    (extract_sections doc url).Sublist
      (landmarkSections doc url ++ extract_by_headings doc url) := by
  refine ⟨processLandmarksFrom_pairwise url _ 0, extract_by_headings_pairwise doc url, ?_⟩
  simp only [extract_sections]
  split_ifs with h
  · exact deduplicate_sections_sublist _
  · exact (deduplicate_sections_sublist _).trans (List.sublist_append_left _ _)

/-- C6 counterexample: a concrete scrape whose returned result holds two
sections with the same id `"section-0"` — one landmark-derived, one from
the heading fallback — refuting id uniqueness within a result. -/
theorem section_ids_counterexample :
    (scrape false uSite envDup).sections.map (fun s => s.id) = ["section-0", "section-0"] ∧
    ¬ ((scrape false uSite envDup).sections.map (fun s => s.id)).Nodup := by
  exact ⟨rfl, by decide⟩

/-! ## Claim C7 -/

/-- C7 (amended): for every input sequence of at least two sections,
deduplication keeps the first section of each distinct non-empty fingerprint
(`text[:100].lower().strip()`), drops every later section sharing that
fingerprint, and keeps an empty-fingerprint section iff it has at least one
heading; sequences of length at most one, however, are returned unchanged
by an early return (the original unconditional claim is refuted by
`dedup_counterexample`). -/
theorem dedup_characterization (l : List Section) :
    (l.length ≤ 1 → deduplicate_sections l = l) ∧
    (2 ≤ l.length → deduplicate_sections l = dedupSpec l) := by
  constructor
  · intro h
    simp [deduplicate_sections, h]
  · intro h
    have hn : ¬ l.length ≤ 1 := by omega
    unfold deduplicate_sections
    rw [if_neg hn]
    exact dedupGo_eq_spec l [] [] (by simp)

/-- C7 witness: the amended characterization applied at a concrete
two-section sequence, discharging the length hypothesis. -/
theorem dedup_characterization_witness :
    deduplicate_sections [secEmpty, secHeadingOnly] = dedupSpec [secEmpty, secHeadingOnly] :=
  (dedup_characterization [secEmpty, secHeadingOnly]).2 (by decide)

/-- C7 counterexample: a singleton sequence holding one section with empty
fingerprint and no headings is returned unchanged (the early return for
length ≤ 1), though the claim requires such a section to be dropped. -/
theorem dedup_counterexample :
    deduplicate_sections [secEmpty] = [secEmpty] ∧
    fingerprint secEmpty = "" ∧
    secEmpty.content.headings = [] := ⟨rfl, rfl, rfl⟩

/-! ## Claim C8 -/

/-- C8: for a static page whose body contains a `main` with one
`h1` titled "Title" and three paragraphs each longer than 10 characters, the
extractor returns exactly one section, of type `"section"`, label
`"Title"`, and headings `["Title"]`; the heading fallback fires (fewer than
3 landmark sections) and deduplication collapses its duplicate back to one
section. -/
theorem end_to_end_main_page :
    (landmarkSections docC8 uSite).length = 1 ∧
    (extract_by_headings docC8 uSite).length = 1 ∧
    (extract_sections docC8 uSite).map (fun s => (s.type, s.label, s.content.headings)) =
      [("section", "Title", ["Title"])] := ⟨rfl, rfl, rfl⟩

/-! ## Claim C9 -/

/-- C9: deduplication is idempotent — applying `_deduplicate_sections`
twice yields the same output as applying it once, for every input
sequence. -/
theorem dedup_idempotent (l : List Section) :
    deduplicate_sections (deduplicate_sections l) = deduplicate_sections l := by
  by_cases h : l.length ≤ 1
  · simp [deduplicate_sections, h]
  · have hout : deduplicate_sections l = dedupGo [] l := by
      simp [deduplicate_sections, h]
    rw [hout, deduplicate_sections]
    split_ifs with h2
    · rfl
    · exact dedupGo_idem l []

/-! ## Claim C10 -/

/-- C10: every section of a returned `ScrapeResult` has `sourceUrl` equal to
the top-level requested URL, on every path — extraction always runs on the
final document with the original URL, never an intermediate pagination
URL. -/
theorem scrape_sections_sourceUrl (pa : Bool) (url : String) (env : ScrapeEnv) :
    ∀ s ∈ (scrape pa url env).sections, s.sourceUrl = url := by
  obtain ⟨sAt, cf, f, js⟩ := env
  cases cf with
  | some msg =>
    intro s hs
    rw [scrape_classify] at hs
    exact absurd hs (by simp [initResult])
  | none =>
    intro s hs
    rw [scrape_none_eq] at hs
    split_ifs at hs with h1 h2 h3
    · exact js_scrape_sections pa url js s hs
    · rcases mergeResults_sections_cases (fallbackPre url sAt f) (js_scrape pa url js) with hc | hc
      · rw [hc] at hs
        exact js_scrape_sections pa url js s hs
      · rw [hc] at hs
        have he : (fallbackPre url sAt f).sections = (static_scrape url f).sections := rfl
        rw [he] at hs
        exact static_scrape_sections url f s hs
    · have he : (pwMissing (fetchPhase url sAt f)).sections = (static_scrape url f).sections := rfl
      rw [he] at hs
      exact static_scrape_sections url f s hs
    · have he : (fetchPhase url sAt f).sections = (static_scrape url f).sections := rfl
      rw [he] at hs
      exact static_scrape_sections url f s hs

/-- C10 witness: the theorem applied at a concrete scrape returning one
section, discharging the membership hypothesis. -/
theorem scrape_sections_sourceUrl_witness :
    secW ∈ (scrape false uSite envW).sections ∧ secW.sourceUrl = uSite :=
  ⟨by decide, scrape_sections_sourceUrl false uSite envW secW (by decide)⟩

end Scraper
